import Mathlib

/-!
Verification of the velero-plugin-change-container-image restore plugin
(internal/plugin, RestorePluginV2) against its natural-language specification.

The Go code is shallowly embedded: the unstructured restore item is modelled
by the structured `Item` type below (the fields the plugin reads and writes,
plus opaque `otherFields` standing for the remaining schema fields, which the
host round-trip preserves); the host's unstructured/typed conversion, which
the spec excludes by design, is the identity on this structured view.
-/

/-- One step of Go's strings.Split(s, sep) for a one-character separator:
accumulates the current segment in `acc` (reversed) and cuts at each colon. -/
def splitCharsAux (l : List Char) (acc : List Char) : List (List Char) :=
  match l with
  | [] => [acc.reverse]
  | c :: cs => if c = ':' then acc.reverse :: splitCharsAux cs [] else splitCharsAux cs (c :: acc)

/-- Go's strings.Split(image, ":") as used by getImageTag. -/
def splitOnColon (s : String) : List String :=
  (splitCharsAux s.data []).map String.mk

theorem splitCharsAux_no_colon (l acc : List Char) (h : ∀ c ∈ l, ¬ c = ':') :
    splitCharsAux l acc = [acc.reverse ++ l] := by
  induction l generalizing acc with
  | nil => simp [splitCharsAux]
  | cons c cs ih =>
    have hc : ¬ c = ':' := h c (by simp)
    have hcs : ∀ x ∈ cs, ¬ x = ':' := fun x hx => h x (by simp [hx])
    simp [splitCharsAux, hc, ih _ hcs]

theorem splitCharsAux_append (front back : List Char) (acc : List Char)
    (h : ∀ c ∈ front, ¬ c = ':') :
    splitCharsAux (front ++ ':' :: back) acc = (acc.reverse ++ front) :: splitCharsAux back [] := by
  induction front generalizing acc with
  | nil => simp [splitCharsAux]
  | cons c cs ih =>
    have hc : ¬ c = ':' := h c (by simp)
    have hcs : ∀ x ∈ cs, ¬ x = ':' := fun x hx => h x (by simp [hx])
    simp [splitCharsAux, hc, ih _ hcs]

theorem no_colon_of_mem_splitCharsAux (l : List Char) :
    ∀ (acc part : List Char), (∀ c ∈ acc, ¬ c = ':') →
    part ∈ splitCharsAux l acc → ∀ c ∈ part, ¬ c = ':' := by
  induction l with
  | nil =>
    intro acc part hacc hp
    simp [splitCharsAux] at hp
    subst hp
    intro c hc
    exact hacc c (List.mem_reverse.mp hc)
  | cons d cs ih =>
    intro acc part hacc hp
    by_cases hd : d = ':'
    · subst hd
      simp [splitCharsAux] at hp
      rcases hp with hp | hp
      · subst hp
        intro c hc
        exact hacc c (List.mem_reverse.mp hc)
      · exact ih [] part (by simp) hp
    · simp [splitCharsAux, hd] at hp
      refine ih (d :: acc) part ?_ hp
      intro c hc
      rcases List.mem_cons.mp hc with h1 | h1
      · subst h1; exact hd
      · exact hacc c h1

/-- Whether an image string contains a colon at all (used to state when the
tag-extraction below can find a tag). -/
def containsColon (s : String) : Bool :=
  s.data.any (fun c => c == ':')

/-- Number of colons in an image string. -/
def colonCount (s : String) : Nat :=
  s.data.count ':'

theorem containsColon_eq_false_iff (s : String) :
    containsColon s = false ↔ ∀ c ∈ s.data, ¬ c = ':' := by
  simp [containsColon]

theorem string_data_inj (s t : String) (h : s.data = t.data) : s = t := by
  cases s
  cases t
  exact congrArg String.mk (by simpa using h)

theorem string_colon_data : (":" : String).data = [':'] := by decide

theorem string_data_append (s t : String) : (s ++ t).data = s.data ++ t.data := by
  cases s
  cases t
  rfl

/-- Embeds getImageTag from the plugin: split the image on colons and return
the second part when there is one, the empty string otherwise. -/
def getImageTag (image : String) : String :=
  let parts := splitOnColon image
  if 1 < parts.length then parts.getD 1 ("") else ""

/-- The repository part of an image reference: the part before the first colon.
The source only extracts the tag (parts[1]); the repository component named by
the spec's "split the image string on a colon to separate repository and tag"
is the corresponding parts[0]. -/
def imageRepo (image : String) : String :=
  (splitOnColon image).headD ("")

theorem getImageTag_of_no_colon (s : String) (h : containsColon s = false) :
    getImageTag s = "" := by
  have h2 : ∀ c ∈ s.data, ¬ c = ':' := (containsColon_eq_false_iff s).mp h
  simp [getImageTag, splitOnColon, splitCharsAux_no_colon _ _ h2]

theorem getImageTag_append (n t : String) (hn : containsColon n = false)
    (ht : containsColon t = false) :
    getImageTag (n ++ ":" ++ t) = t := by
  have hn2 : ∀ c ∈ n.data, ¬ c = ':' := (containsColon_eq_false_iff n).mp hn
  have ht2 : ∀ c ∈ t.data, ¬ c = ':' := (containsColon_eq_false_iff t).mp ht
  have hdata : (n ++ ":" ++ t).data = n.data ++ ':' :: t.data := by
    rw [string_data_append, string_data_append, string_colon_data]
    simp
  simp [getImageTag, splitOnColon, hdata, splitCharsAux_append _ _ _ hn2,
    splitCharsAux_no_colon _ _ ht2, List.getD]

theorem containsColon_getImageTag (s : String) :
    containsColon (getImageTag s) = false := by
  rcases h : splitCharsAux s.data [] with _ | ⟨p0, rest⟩
  · simp [getImageTag, splitOnColon, h]
    decide
  rcases rest with _ | ⟨p1, rest2⟩
  · simp [getImageTag, splitOnColon, h]
    decide
  have hp1 : p1 ∈ splitCharsAux s.data [] := by rw [h]; simp
  have hnc := no_colon_of_mem_splitCharsAux s.data [] p1 (by simp) hp1
  have htag : getImageTag s = String.mk p1 := by
    simp [getImageTag, splitOnColon, h, List.getD]
  rw [htag]
  exact (containsColon_eq_false_iff _).mpr hnc

/-- A container of a pod template: the plugin reads and writes only `image`;
`name` and `otherFields` stand for the fields it never touches. -/
structure Container where
  name : String
  image : String
  otherFields : Nat
deriving DecidableEq

/-- A value stored under an annotation key: the restored item's annotations are
arbitrary unstructured values, so a value is either a string or some non-string
value (abstracted by a number). -/
inductive AnnValue where
  | str : String → AnnValue
  | nonString : Nat → AnnValue
deriving DecidableEq

/-- Resource metadata: the annotations map may be absent altogether. -/
structure Metadata where
  name : String
  namespaceName : String
  annotations : Option (List (String × AnnValue))
  otherFields : Nat
deriving DecidableEq

/-- The pod spec inside the workload's pod template. -/
structure PodSpec where
  containers : List Container
  otherFields : Nat
deriving DecidableEq

/-- The workload's pod template. -/
structure PodTemplateSpec where
  templateMetadata : Nat
  spec : PodSpec
deriving DecidableEq

/-- The workload spec (Deployment/StatefulSet spec: replicas, pod template,
and the remaining fields). -/
structure WorkloadSpec where
  replicas : Option Int
  template : PodTemplateSpec
  otherFields : Nat
deriving DecidableEq

/-- The restore item as the plugin sees it: the structured view of the
unstructured object (kind, metadata, spec, remaining schema fields). -/
structure Item where
  kind : String
  metadata : Metadata
  spec : WorkloadSpec
  otherFields : Nat
deriving DecidableEq

/-- The annotation key the plugin inspects. -/
def imageAnnotationKey : String := "eth-eks.velero/container-image"

/-- Embeds the plugin's getImageAnnotation: read the annotation value; a
missing annotations map, a missing key, or a non-string value all report the
annotation as absent (Go: the failed type assertions yield exists=false). -/
def getImageAnnotationValue (item : Item) : Option String :=
  match item.metadata.annotations with
  | none => none
  | some anns =>
    match anns.lookup imageAnnotationKey with
    | none => none
    | some (AnnValue.str s) => some s
    | some (AnnValue.nonString _) => none

/-- Embeds createResource: allocates the typed object for the kind, or fails
for any kind other than StatefulSet and Deployment. -/
def createResource (kind : String) : Except String Unit :=
  if kind = "StatefulSet" then Except.ok ()
  else if kind = "Deployment" then Except.ok ()
  else Except.error ("unsupported kind " ++ kind)

/-- The container list of the item's pod template. -/
def containersOf (item : Item) : List Container :=
  item.spec.template.spec.containers

/-- Replace the container list of the item's pod template, leaving every other
field in place. -/
def setContainers (item : Item) (cs : List Container) : Item :=
  { item with spec := { item.spec with template := { item.spec.template with
      spec := { item.spec.template.spec with containers := cs } } } }

/-- Embeds the loop body of updateContainerImages: `newImage` is a single Go
variable threaded through the loop, so a tag appended for one container is
still present when later containers are processed. -/
def updateContainerImagesLoop : List Container → String → List Container
  | [], _ => []
  | c :: rest, newImage =>
    if ¬ getImageTag c.image = "" ∧ getImageTag newImage = "" then
      { c with image := newImage ++ ":" ++ getImageTag c.image } ::
        updateContainerImagesLoop rest (newImage ++ ":" ++ getImageTag c.image)
    else
      { c with image := newImage } :: updateContainerImagesLoop rest newImage

/-- Embeds updateContainerImages: both supported kinds expose the containers at
spec.template.spec.containers (the shared `Item` shape); any other kind is an
error. -/
def updateContainerImages (item : Item) (newImage : String) (kind : String) :
    Except String Item :=
  if kind = "StatefulSet" then
    Except.ok (setContainers item (updateContainerImagesLoop (containersOf item) newImage))
  else if kind = "Deployment" then
    Except.ok (setContainers item (updateContainerImagesLoop (containersOf item) newImage))
  else Except.error ("unsupported kind " ++ kind)

/-- Embeds Execute: when the annotation is absent the input item is returned
as is; otherwise the typed resource is created for the item's kind, its
container images are updated, and the result is returned (the host's
unstructured round-trip being the identity on the structured view). -/
def Execute (item : Item) : Except String Item :=
  match getImageAnnotationValue item with
  | none => Except.ok item
  | some newImage =>
    match createResource item.kind with
    | Except.error e => Except.error e
    | Except.ok _ =>
      match updateContainerImages item newImage item.kind with
      | Except.error e => Except.error e
      | Except.ok res => Except.ok res

/-- Applying Execute and, when it succeeds, applying it again to the output. -/
def executeTwice (item : Item) : Except String Item :=
  match Execute item with
  | Except.error e => Except.error e
  | Except.ok out => Execute out

/-- The resource selector the plugin registers (AppliesTo). -/
structure ResourceSelector where
  includedResources : List String
deriving DecidableEq

/-- Embeds AppliesTo: the selector lists only statefulsets and deployments. -/
def AppliesTo : ResourceSelector :=
  { includedResources := ["statefulsets", "deployments"] }

/-- The images of the item's containers, in order. -/
def imagesOf (item : Item) : List String :=
  (containersOf item).map Container.image

/-- A container with the given name and image and fixed remaining fields. -/
def mkContainer (nm img : String) : Container :=
  { name := nm, image := img, otherFields := 0 }

/-- A workload item of the given kind, annotations and containers, with fixed
remaining fields. -/
def mkItem (kind : String) (ann : Option (List (String × AnnValue)))
    (cs : List Container) : Item :=
  { kind := kind,
    metadata := { name := "test", namespaceName := "test-namespace",
                  annotations := ann, otherFields := 0 },
    spec := { replicas := some 1,
              template := { templateMetadata := 0,
                            spec := { containers := cs, otherFields := 0 } },
              otherFields := 0 },
    otherFields := 0 }

theorem updateContainerImagesLoop_of_tagged (cs : List Container) (n : String)
    (h : ¬ getImageTag n = "") :
    updateContainerImagesLoop cs n = cs.map (fun c => { c with image := n }) := by
  induction cs with
  | nil => rfl
  | cons c rest ih => simp [updateContainerImagesLoop, h, ih]

theorem updateContainerImagesLoop_of_untagged (cs : List Container) (n : String)
    (h : ∀ c ∈ cs, getImageTag c.image = "") :
    updateContainerImagesLoop cs n = cs.map (fun c => { c with image := n }) := by
  induction cs with
  | nil => rfl
  | cons c rest ih =>
    have hc := h c (by simp)
    have hrest : ∀ x ∈ rest, getImageTag x.image = "" := fun x hx => h x (by simp [hx])
    simp [updateContainerImagesLoop, hc, ih hrest]

theorem updateContainerImagesLoop_split (front : List Container) (b : Container)
    (back : List Container) (n : String)
    (hn : containsColon n = false)
    (hfront : ∀ c ∈ front, getImageTag c.image = "")
    (hb : ¬ getImageTag b.image = "") :
    updateContainerImagesLoop (front ++ b :: back) n =
      front.map (fun c => { c with image := n }) ++
        ({ b with image := n ++ ":" ++ getImageTag b.image } ::
          back.map (fun c => { c with image := n ++ ":" ++ getImageTag b.image })) := by
  induction front with
  | nil =>
    have hn0 : getImageTag n = "" := getImageTag_of_no_colon n hn
    have htag : getImageTag (n ++ ":" ++ getImageTag b.image) = getImageTag b.image :=
      getImageTag_append n _ hn (containsColon_getImageTag b.image)
    have hb2 : ¬ getImageTag (n ++ ":" ++ getImageTag b.image) = "" := by
      rw [htag]; exact hb
    simp [updateContainerImagesLoop, hb, hn0,
      updateContainerImagesLoop_of_tagged back _ hb2]
  | cons c rest ih =>
    have hc := hfront c (by simp)
    have hrest : ∀ x ∈ rest, getImageTag x.image = "" := fun x hx => hfront x (by simp [hx])
    simp only [List.cons_append, updateContainerImagesLoop, hc]
    simp [ih hrest]

theorem updateContainerImagesLoop_idem (cs : List Container) :
    ∀ n : String, containsColon n = false ∨ ¬ getImageTag n = "" →
    updateContainerImagesLoop (updateContainerImagesLoop cs n) n =
      updateContainerImagesLoop cs n := by
  induction cs with
  | nil => intro n h; rfl
  | cons c rest ih =>
    intro n h
    by_cases hn : getImageTag n = ""
    · have hnc : containsColon n = false := by
        rcases h with h | h
        · exact h
        · exact absurd hn h
      by_cases htag : getImageTag c.image = ""
      · simp [updateContainerImagesLoop, htag, hn, ih n h]
      · have ht2 : getImageTag (n ++ ":" ++ getImageTag c.image) = getImageTag c.image :=
          getImageTag_append n _ hnc (containsColon_getImageTag c.image)
        have hn2 : ¬ getImageTag (n ++ ":" ++ getImageTag c.image) = "" := by
          rw [ht2]; exact htag
        simp [updateContainerImagesLoop, htag, hn, ht2, ih _ (Or.inr hn2)]
    · simp [updateContainerImagesLoop, hn, ih n h]

theorem setContainers_kind (item : Item) (cs : List Container) :
    (setContainers item cs).kind = item.kind := rfl

theorem setContainers_metadata (item : Item) (cs : List Container) :
    (setContainers item cs).metadata = item.metadata := rfl

theorem containersOf_setContainers (item : Item) (cs : List Container) :
    containersOf (setContainers item cs) = cs := rfl

theorem setContainers_setContainers (item : Item) (cs ds : List Container) :
    setContainers (setContainers item cs) ds = setContainers item ds := rfl

theorem getImageAnnotationValue_setContainers (item : Item) (cs : List Container) :
    getImageAnnotationValue (setContainers item cs) = getImageAnnotationValue item := rfl

theorem Execute_supported (item : Item) (rep : String)
    (hann : getImageAnnotationValue item = some rep)
    (hkind : item.kind = "StatefulSet" ∨ item.kind = "Deployment") :
    Execute item =
      Except.ok (setContainers item (updateContainerImagesLoop (containersOf item) rep)) := by
  rcases hkind with h | h <;>
    simp [Execute, hann, createResource, updateContainerImages, h]

theorem Execute_unsupported (item : Item) (rep : String)
    (hann : getImageAnnotationValue item = some rep)
    (h1 : ¬ item.kind = "StatefulSet") (h2 : ¬ item.kind = "Deployment") :
    Execute item = Except.error ("unsupported kind " ++ item.kind) := by
  simp [Execute, hann, createResource, h1, h2]

theorem Execute_ok_elim (item out : Item) (rep : String)
    (hann : getImageAnnotationValue item = some rep)
    (hexec : Execute item = Except.ok out) :
    (item.kind = "StatefulSet" ∨ item.kind = "Deployment") ∧
    out = setContainers item (updateContainerImagesLoop (containersOf item) rep) := by
  by_cases h1 : item.kind = "StatefulSet"
  · rw [Execute_supported item rep hann (Or.inl h1)] at hexec
    exact ⟨Or.inl h1, (Except.ok.injEq _ _ ▸ hexec).symm⟩
  by_cases h2 : item.kind = "Deployment"
  · rw [Execute_supported item rep hann (Or.inr h2)] at hexec
    exact ⟨Or.inr h2, (Except.ok.injEq _ _ ▸ hexec).symm⟩
  · rw [Execute_unsupported item rep hann h1 h2] at hexec
    exact absurd hexec (by simp)

theorem count_one_decompose (l : List Char) (h : l.count ':' = 1) :
    ∃ a b, l = a ++ ':' :: b ∧ (∀ c ∈ a, ¬ c = ':') ∧ (∀ c ∈ b, ¬ c = ':') := by
  induction l with
  | nil => simp at h
  | cons d rest ih =>
    by_cases hd : d = ':'
    · subst hd
      have hrest : rest.count ':' = 0 := by
        have := h
        rw [List.count_cons_self] at this
        omega
      refine ⟨[], rest, rfl, by simp, ?_⟩
      intro c hc heq
      subst heq
      exact absurd (List.count_eq_zero.mp hrest) (by simp [hc])
    · have hrest : rest.count ':' = 1 := by
        have := h
        rw [List.count_cons_of_ne (fun heq => hd heq.symm)] at this
        exact this
      obtain ⟨a, b, hab, ha, hb⟩ := ih hrest
      refine ⟨d :: a, b, by simp [hab], ?_, hb⟩
      intro c hc
      rcases List.mem_cons.mp hc with h1 | h1
      · subst h1; exact hd
      · exact ha c h1

theorem image_of_mem_map_set (cs : List Container) (n : String) (d : Container)
    (hd : d ∈ cs.map (fun c => { c with image := n })) : d.image = n := by
  simp only [List.mem_map] at hd
  obtain ⟨d0, _, heq⟩ := hd
  subst heq
  rfl

theorem map_image_set (cs : List Container) (n : String) :
    (cs.map (fun c => { c with image := n })).map Container.image =
      List.replicate cs.length n := by
  induction cs with
  | nil => rfl
  | cons c rest ih => simp [ih, List.replicate_succ]

theorem imagesOf_setContainers (item : Item) (cs : List Container) :
    imagesOf (setContainers item cs) = cs.map Container.image := rfl

theorem updateContainerImagesLoop_shape (cs : List Container) :
    ∀ n, (updateContainerImagesLoop cs n).map (fun c => (c.name, c.otherFields)) =
      cs.map (fun c => (c.name, c.otherFields)) := by
  induction cs with
  | nil => intro n; rfl
  | cons c rest ih =>
    intro n
    simp only [updateContainerImagesLoop]
    split
    · simp [ih]
    · simp [ih]

deriving instance DecidableEq for Except

/-! ## The claims -/

/-- The failing input of claim C1: a CronJob carrying the image annotation, as
in the repository's own CronJob restore test. -/
def c1CronJobItem : Item :=
  mkItem ("CronJob") (some [(imageAnnotationKey, AnnValue.str ("new-registry/app"))])
    [mkContainer ("app") ("old-registry/app:v1.2.3")]

/-- Claim C1: the claim (and the repository's own tests) say Execute handles
Deployment, StatefulSet and CronJob and that AppliesTo includes all three
resource types; the code instead rejects a CronJob carrying the annotation
with an error and registers a selector naming only statefulsets and
deployments. This theorem evaluates the code at the failing input. -/
theorem c1_cronjob_rejected :
    Execute c1CronJobItem = Except.error ("unsupported kind CronJob") ∧
    ¬ "cronjobs" ∈ AppliesTo.includedResources ∧
    AppliesTo.includedResources = ["statefulsets", "deployments"] := by
  refine ⟨by decide, by decide, rfl⟩

/-- The counterexample input of claim C2: a Deployment with two containers
whose original images carry distinct tags, and an untagged replacement. -/
def c2TwoTaggedItem : Item :=
  mkItem ("Deployment") (some [(imageAnnotationKey, AnnValue.str ("new-registry/app"))])
    [mkContainer ("app-a") ("old-a:v1"), mkContainer ("app-b") ("old-b:v2")]

/-- Claim C2 counterexample: the second container's original image has tag v2
and the replacement has no tag, yet its resulting image is the replacement
with the FIRST container's tag v1 appended, not its own tag v2: the loop
mutates the single newImage variable, so the first appended tag sticks. -/
theorem c2_counterexample :
    getImageTag ("new-registry/app") = "" ∧
    getImageTag ("old-b:v2") = "v2" ∧
    (Execute c2TwoTaggedItem).map imagesOf =
      Except.ok [("new-registry/app:v1"), ("new-registry/app:v1")] ∧
    ¬ ("new-registry/app:v1" : String) = "new-registry/app" ++ ":" ++ "v2" := by
  refine ⟨by decide, by decide, by decide, by decide⟩

/-- Claim C2 (amended): when the replacement string has no colon, the
containers before the first tagged one receive the bare replacement, and every
container from the first tagged one onward — in particular every container
whose original image has a tag — receives the replacement followed by a colon
and the FIRST tagged container's original tag. -/
theorem c2_first_tag_preserved (item out : Item) (rep : String)
    (front : List Container) (b : Container) (back : List Container)
    (hann : getImageAnnotationValue item = some rep)
    (hrep : containsColon rep = false)
    (hsplit : containersOf item = front ++ b :: back)
    (hfront : ∀ c ∈ front, getImageTag c.image = "")
    (hb : ¬ getImageTag b.image = "")
    (hexec : Execute item = Except.ok out) :
    containersOf out =
      front.map (fun c => { c with image := rep }) ++
        ({ b with image := rep ++ ":" ++ getImageTag b.image } ::
          back.map (fun c => { c with image := rep ++ ":" ++ getImageTag b.image })) := by
  obtain ⟨hkind, hout⟩ := Execute_ok_elim item out rep hann hexec
  subst hout
  rw [containersOf_setContainers, hsplit,
    updateContainerImagesLoop_split front b back rep hrep hfront hb]

/-- The witness input of claim C2 (amended): an untagged sidecar, then two
containers with distinct tags. -/
def c2WitnessItem : Item :=
  mkItem ("Deployment") (some [(imageAnnotationKey, AnnValue.str ("new-registry/app"))])
    [mkContainer ("sidecar") ("plain-img"), mkContainer ("app-a") ("old-a:v1"),
      mkContainer ("app-b") ("old-b:v2")]

/-- The output Execute produces on the witness input of claim C2 (amended). -/
def c2WitnessOut : Item :=
  setContainers c2WitnessItem
    (updateContainerImagesLoop (containersOf c2WitnessItem) ("new-registry/app"))

/-- Witness for claim C2 (amended), at a Deployment with containers
plain-img, old-a:v1, old-b:v2 and replacement new-registry/app. -/
theorem c2_first_tag_preserved_witness :
    containersOf c2WitnessOut =
      [mkContainer ("sidecar") ("plain-img")].map
          (fun c => { c with image := "new-registry/app" }) ++
        ({ mkContainer ("app-a") ("old-a:v1") with
            image := "new-registry/app" ++ ":" ++ getImageTag ("old-a:v1") } ::
          [mkContainer ("app-b") ("old-b:v2")].map
            (fun c => { c with
              image := "new-registry/app" ++ ":" ++ getImageTag ("old-a:v1") })) :=
  c2_first_tag_preserved c2WitnessItem c2WitnessOut ("new-registry/app")
    [mkContainer ("sidecar") ("plain-img")] (mkContainer ("app-a") ("old-a:v1"))
    [mkContainer ("app-b") ("old-b:v2")]
    (by decide) (by decide) (by decide) (by decide) (by decide) (by decide)

/-- The counterexample input of claim C3: an untagged container followed by a
tagged one, with an untagged replacement. -/
def c3MixedItem : Item :=
  mkItem ("Deployment") (some [(imageAnnotationKey, AnnValue.str ("new-registry/app"))])
    [mkContainer ("plain") ("plain-img"), mkContainer ("app-b") ("old-b:v1")]

/-- Claim C3 counterexample: after Execute the two containers carry DIFFERENT
image strings — the untagged container gets the bare replacement while the
tagged one gets the replacement with its tag appended — so the rewrite is not
uniform. -/
theorem c3_counterexample :
    (Execute c3MixedItem).map imagesOf =
      Except.ok [("new-registry/app"), ("new-registry/app:v1")] ∧
    ¬ ("new-registry/app" : String) = "new-registry/app:v1" := by
  refine ⟨by decide, by decide⟩

/-- Claim C3 (amended): the rewrite is uniform when the replacement string has
a nonempty tag, or when no container's original image has a nonempty tag; in
either case every container receives the same image string, so the image list
becomes a constant list. -/
theorem c3_uniform_rewrite (item out : Item) (rep : String)
    (hann : getImageAnnotationValue item = some rep)
    (hcond : ¬ getImageTag rep = "" ∨ ∀ c ∈ containersOf item, getImageTag c.image = "")
    (hexec : Execute item = Except.ok out) :
    imagesOf out = List.replicate (containersOf item).length rep := by
  obtain ⟨hkind, hout⟩ := Execute_ok_elim item out rep hann hexec
  subst hout
  rw [imagesOf_setContainers]
  rcases hcond with h | h
  · rw [updateContainerImagesLoop_of_tagged _ _ h, map_image_set]
  · rw [updateContainerImagesLoop_of_untagged _ _ h, map_image_set]

/-- The witness input of claim C3 (amended): two containers with distinct
tags, and a replacement that already carries a tag. -/
def c3WitnessItem : Item :=
  mkItem ("Deployment") (some [(imageAnnotationKey, AnnValue.str ("new-registry/app:v2"))])
    [mkContainer ("app-a") ("old-a:v1"), mkContainer ("app-b") ("old-b:v9")]

/-- The output Execute produces on the witness input of claim C3 (amended). -/
def c3WitnessOut : Item :=
  setContainers c3WitnessItem
    (updateContainerImagesLoop (containersOf c3WitnessItem) ("new-registry/app:v2"))

/-- Witness for claim C3 (amended), at a Deployment with two tagged containers
and the tagged replacement new-registry/app:v2. -/
theorem c3_uniform_rewrite_witness :
    imagesOf c3WitnessOut =
      List.replicate (containersOf c3WitnessItem).length ("new-registry/app:v2") :=
  c3_uniform_rewrite c3WitnessItem c3WitnessOut ("new-registry/app:v2")
    (by decide) (Or.inl (by decide)) (by decide)

/-- Claim C4 counterexample: on an image with two colons (a registry with a
port), splitting extracts tag parts[1] = 5000/app, and repository
concatenated with a colon and that tag does not reconstruct the original. -/
theorem c4_counterexample :
    containsColon ("my-registry:5000/app:v1") = true ∧
    imageRepo ("my-registry:5000/app:v1") = "my-registry" ∧
    getImageTag ("my-registry:5000/app:v1") = "5000/app" ∧
    ¬ (imageRepo ("my-registry:5000/app:v1") ++ ":" ++ getImageTag ("my-registry:5000/app:v1")
        = "my-registry:5000/app:v1") := by
  refine ⟨by decide, by decide, by decide, by decide⟩

/-- Claim C4 (amended): for every image string containing EXACTLY ONE colon,
the repository part concatenated with a colon and the extracted tag
reconstructs the original image string. -/
theorem c4_single_colon_reconstruction (s : String) (h : colonCount s = 1) :
    imageRepo s ++ ":" ++ getImageTag s = s := by
  obtain ⟨a, b, hab, ha, hb⟩ := count_one_decompose s.data h
  have hs : splitCharsAux s.data [] = [a, b] := by
    rw [hab, splitCharsAux_append a b [] ha, splitCharsAux_no_colon b [] hb]
    simp
  have hrepo : imageRepo s = String.mk a := by
    simp [imageRepo, splitOnColon, hs]
  have htag : getImageTag s = String.mk b := by
    simp [getImageTag, splitOnColon, hs, List.getD]
  rw [hrepo, htag]
  apply string_data_inj
  rw [string_data_append, string_data_append, string_colon_data, hab]
  simp

/-- Witness for claim C4 (amended), at the single-colon image
old-registry/app:v1.2.3 from the repository's tests. -/
theorem c4_single_colon_reconstruction_witness :
    colonCount ("old-registry/app:v1.2.3") = 1 ∧
    imageRepo ("old-registry/app:v1.2.3") ++ ":" ++ getImageTag ("old-registry/app:v1.2.3")
      = "old-registry/app:v1.2.3" :=
  ⟨by decide, c4_single_colon_reconstruction ("old-registry/app:v1.2.3") (by decide)⟩

/-- Claim C5: when the image annotation is absent (also when the annotations
map itself is missing or the value is not a string), Execute returns the input
item itself, unchanged in every field, and no error. -/
theorem c5_no_annotation_noop (item : Item)
    (h : getImageAnnotationValue item = none) :
    Execute item = Except.ok item := by
  simp [Execute, h]

/-- The witness input of claim C5: a Deployment without the annotation. -/
def c5PlainItem : Item :=
  mkItem ("Deployment") none [mkContainer ("app") ("original/image:v1.0.0")]

/-- Witness for claim C5, at a Deployment carrying no annotations at all. -/
theorem c5_no_annotation_noop_witness :
    getImageAnnotationValue c5PlainItem = none ∧
    Execute c5PlainItem = Except.ok c5PlainItem :=
  ⟨by decide, c5_no_annotation_noop c5PlainItem (by decide)⟩

/-- The counterexample input of claim C6: the replacement contains a colon but
its tag part is empty, and the container's original image is tagged. -/
def c6EmptyTagItem : Item :=
  mkItem ("StatefulSet") (some [(imageAnnotationKey, AnnValue.str ("new-registry/app:"))])
    [mkContainer ("app") ("old/app:v1")]

/-- Claim C6 counterexample: the replacement new-registry/app: contains a
colon, yet the resulting image is new-registry/app::v1, not the annotation
value: the code tests the extracted tag for emptiness, not the mere presence
of a colon, so it still appends the original tag. -/
theorem c6_counterexample :
    containsColon ("new-registry/app:") = true ∧
    (Execute c6EmptyTagItem).map imagesOf = Except.ok [("new-registry/app::v1")] ∧
    ¬ ("new-registry/app::v1" : String) = "new-registry/app:" := by
  refine ⟨by decide, by decide, by decide⟩

/-- Claim C6 (amended): when the replacement image string has a NONEMPTY
extracted tag (not merely a colon), every container's resulting image is the
annotation value exactly, regardless of the containers' original tags. -/
theorem c6_tagged_replacement_wins (item out : Item) (rep : String)
    (hann : getImageAnnotationValue item = some rep)
    (hrep : ¬ getImageTag rep = "")
    (hexec : Execute item = Except.ok out) :
    imagesOf out = List.replicate (containersOf item).length rep := by
  obtain ⟨hkind, hout⟩ := Execute_ok_elim item out rep hann hexec
  subst hout
  rw [imagesOf_setContainers, updateContainerImagesLoop_of_tagged _ _ hrep, map_image_set]

/-- The witness input of claim C6 (amended): the StatefulSet from the
repository's tests, with the tagged replacement new-registry/app:v2.0.0. -/
def c6WitnessItem : Item :=
  mkItem ("StatefulSet") (some [(imageAnnotationKey, AnnValue.str ("new-registry/app:v2.0.0"))])
    [mkContainer ("app") ("old-registry/app:v1.0.0")]

/-- The output Execute produces on the witness input of claim C6 (amended). -/
def c6WitnessOut : Item :=
  setContainers c6WitnessItem
    (updateContainerImagesLoop (containersOf c6WitnessItem) ("new-registry/app:v2.0.0"))

/-- Witness for claim C6 (amended), at a StatefulSet with a tagged original
image and the tagged replacement new-registry/app:v2.0.0. -/
theorem c6_tagged_replacement_wins_witness :
    imagesOf c6WitnessOut =
      List.replicate (containersOf c6WitnessItem).length ("new-registry/app:v2.0.0") :=
  c6_tagged_replacement_wins c6WitnessItem c6WitnessOut ("new-registry/app:v2.0.0")
    (by decide) (by decide) (by decide)

/-- Claim C7: when the annotation is present and Execute succeeds, only the
containers' image fields change: the kind, the metadata (including the
annotations), the remaining top-level fields, the replicas, the rest of the
workload spec, the pod template's metadata, the rest of the pod spec, and
every container's name and remaining fields are unchanged. -/
theorem c7_frame (item out : Item) (rep : String)
    (hann : getImageAnnotationValue item = some rep)
    (hexec : Execute item = Except.ok out) :
    out.kind = item.kind ∧
    out.metadata = item.metadata ∧
    out.otherFields = item.otherFields ∧
    out.spec.replicas = item.spec.replicas ∧
    out.spec.otherFields = item.spec.otherFields ∧
    out.spec.template.templateMetadata = item.spec.template.templateMetadata ∧
    out.spec.template.spec.otherFields = item.spec.template.spec.otherFields ∧
    (containersOf out).map (fun c => (c.name, c.otherFields)) =
      (containersOf item).map (fun c => (c.name, c.otherFields)) := by
  obtain ⟨hkind, hout⟩ := Execute_ok_elim item out rep hann hexec
  subst hout
  refine ⟨rfl, rfl, rfl, rfl, rfl, rfl, rfl, ?_⟩
  rw [containersOf_setContainers]
  exact updateContainerImagesLoop_shape _ _

/-- The witness input of claim C7: the Deployment from the repository's tests. -/
def c7Item : Item :=
  mkItem ("Deployment") (some [(imageAnnotationKey, AnnValue.str ("new-registry/app"))])
    [mkContainer ("app") ("old-registry/app:v1.2.3")]

/-- The output Execute produces on the witness input of claim C7. -/
def c7Out : Item :=
  setContainers c7Item (updateContainerImagesLoop (containersOf c7Item) ("new-registry/app"))

/-- Witness for claim C7, at the test Deployment. -/
theorem c7_frame_witness :
    c7Out.kind = c7Item.kind ∧
    c7Out.metadata = c7Item.metadata ∧
    c7Out.otherFields = c7Item.otherFields ∧
    c7Out.spec.replicas = c7Item.spec.replicas ∧
    c7Out.spec.otherFields = c7Item.spec.otherFields ∧
    c7Out.spec.template.templateMetadata = c7Item.spec.template.templateMetadata ∧
    c7Out.spec.template.spec.otherFields = c7Item.spec.template.spec.otherFields ∧
    (containersOf c7Out).map (fun c => (c.name, c.otherFields)) =
      (containersOf c7Item).map (fun c => (c.name, c.otherFields)) :=
  c7_frame c7Item c7Out ("new-registry/app") (by decide) (by decide)

/-- Claim C8: Execute is a pure function of the input item — equal inputs give
equal outputs (the embedding is stateless, as is the Go code: the receiver
holds only a logger, which the logic never reads). -/
theorem c8_deterministic (a b : Item) (h : a = b) : Execute a = Execute b := by
  rw [h]

/-- The witness input of claim C8. -/
def c8Item : Item :=
  mkItem ("StatefulSet") (some [(imageAnnotationKey, AnnValue.str ("new-registry/app:v2.0.0"))])
    [mkContainer ("app") ("old-registry/app:v1.0.0")]

/-- Witness for claim C8, at the test StatefulSet. -/
theorem c8_deterministic_witness : Execute c8Item = Execute c8Item :=
  c8_deterministic c8Item c8Item rfl

/-- The counterexample input of claim C9: a Deployment whose replacement image
ends in a colon (empty tag part) and whose container image is tagged. -/
def c9EmptyTagItem : Item :=
  mkItem ("Deployment") (some [(imageAnnotationKey, AnnValue.str ("new-registry/app:"))])
    [mkContainer ("app") ("old/app:v1")]

/-- Claim C9 counterexample: the first Execute yields image
new-registry/app::v1; running Execute again on that output yields
new-registry/app: (the doubled colon makes the extracted tag of the stored
image empty, so the second run overwrites it with the bare annotation), so the
second output differs from the first and Execute is not idempotent. -/
theorem c9_counterexample :
    (Execute c9EmptyTagItem).map imagesOf = Except.ok [("new-registry/app::v1")] ∧
    (executeTwice c9EmptyTagItem).map imagesOf = Except.ok [("new-registry/app:")] ∧
    ¬ executeTwice c9EmptyTagItem = Execute c9EmptyTagItem := by
  refine ⟨by decide, by decide, by decide⟩

/-- Claim C9 (amended): Execute is idempotent on every supported annotated
resource whose replacement image string either contains no colon or has a
nonempty extracted tag (every replacement except those with a colon but an
empty tag part, such as repo: or repo::v2): applying Execute to the first
output returns that output again. -/
theorem c9_idempotent (item out : Item) (rep : String)
    (hann : getImageAnnotationValue item = some rep)
    (hrep : containsColon rep = false ∨ ¬ getImageTag rep = "")
    (hexec : Execute item = Except.ok out) :
    Execute out = Except.ok out := by
  obtain ⟨hkind, hout⟩ := Execute_ok_elim item out rep hann hexec
  subst hout
  have hann2 : getImageAnnotationValue
      (setContainers item (updateContainerImagesLoop (containersOf item) rep)) = some rep := by
    rw [getImageAnnotationValue_setContainers]
    exact hann
  have hkind2 : (setContainers item (updateContainerImagesLoop (containersOf item) rep)).kind
      = "StatefulSet" ∨
      (setContainers item (updateContainerImagesLoop (containersOf item) rep)).kind
      = "Deployment" := by
    simp only [setContainers_kind]
    exact hkind
  rw [Execute_supported _ rep hann2 hkind2, containersOf_setContainers,
    setContainers_setContainers, updateContainerImagesLoop_idem _ rep hrep]

/-- The witness input of claim C9 (amended): an untagged container followed by
a tagged one, with an untagged replacement. -/
def c9WitnessItem : Item :=
  mkItem ("Deployment") (some [(imageAnnotationKey, AnnValue.str ("new-registry/app"))])
    [mkContainer ("plain") ("plain-img"), mkContainer ("app") ("old-a:v1")]

/-- The output Execute produces on the witness input of claim C9 (amended). -/
def c9WitnessOut : Item :=
  setContainers c9WitnessItem
    (updateContainerImagesLoop (containersOf c9WitnessItem) ("new-registry/app"))

/-- Witness for claim C9 (amended), at a Deployment with an untagged
replacement. -/
theorem c9_idempotent_witness : Execute c9WitnessOut = Except.ok c9WitnessOut :=
  c9_idempotent c9WitnessItem c9WitnessOut ("new-registry/app")
    (by decide) (Or.inl (by decide)) (by decide)

/-- Claim C10: when the annotation is present as a string but the kind is
neither Deployment nor StatefulSet, Execute returns an error (and no partially
rewritten item); when the annotation value is not a string, it is treated as
absent and the item is returned unchanged. -/
theorem c10_unsupported_kind_or_nonstring (item : Item) :
    (¬ item.kind = "Deployment" → ¬ item.kind = "StatefulSet" →
      ∀ rep, getImageAnnotationValue item = some rep →
        Execute item = Except.error ("unsupported kind " ++ item.kind)) ∧
    (∀ anns k, item.metadata.annotations = some anns →
      anns.lookup imageAnnotationKey = some (AnnValue.nonString k) →
      Execute item = Except.ok item) := by
  constructor
  · intro h2 h1 rep hann
    exact Execute_unsupported item rep hann h1 h2
  · intro anns k hanns hlook
    have hnone : getImageAnnotationValue item = none := by
      simp [getImageAnnotationValue, hanns, hlook]
    simp [Execute, hnone]

/-- The first witness input of claim C10: an annotated CronJob. -/
def c10CronItem : Item :=
  mkItem ("CronJob") (some [(imageAnnotationKey, AnnValue.str ("new-registry/app"))])
    [mkContainer ("app") ("old/app:v1")]

/-- The second witness input of claim C10: a Deployment whose annotation value
is not a string. -/
def c10NonStringItem : Item :=
  mkItem ("Deployment") (some [(imageAnnotationKey, AnnValue.nonString 7)])
    [mkContainer ("app") ("old/app:v1")]

/-- Witness for claim C10, at an annotated CronJob (error, no partial output)
and at a Deployment with a non-string annotation value (returned unchanged). -/
theorem c10_unsupported_kind_or_nonstring_witness :
    Execute c10CronItem = Except.error ("unsupported kind " ++ c10CronItem.kind) ∧
    Execute c10NonStringItem = Except.ok c10NonStringItem :=
  ⟨(c10_unsupported_kind_or_nonstring c10CronItem).1 (by decide) (by decide)
      ("new-registry/app") (by decide),
    (c10_unsupported_kind_or_nonstring c10NonStringItem).2
      [(imageAnnotationKey, AnnValue.nonString 7)] 7 (by decide) (by decide)⟩
